import Mathlib

/-!
Verification of the PunterX EV lab heuristics.

This file is a shallow embedding of the two scoring engines of the
repository:

* `src/ev_lab/api_outrights.py` — the outrights scorer
  (`score_outright_event` and the HTTP boundary `ev_outrights_score`);
* `src/ev_lab/simple_ev_model.py` — the match EV scorer (`score_events`).

Embedding conventions:

* Python floats are modelled by `ℚ`.  All numeric literals of the source
  (`0.4`, `0.25`, `1.3`, …) are exact decimal fractions, so nothing is
  lost; `round(x, 3)` is modelled by rational rounding to 3 decimals.
* The wall clock (`datetime.now(timezone.utc)`) is an explicit `now : ℚ`
  parameter (seconds since the epoch).  `datetime` values are instants
  `t : ℚ` in the same scale; timezone normalisation of naive datetimes
  does not change the modelled instant.
* Optional / nullable fields are `Option _`.  Python truthiness of a
  string (`x or default`) is modelled by testing for the empty string.
* `dict.get` misses are `none`; the pydantic-validated record types of
  `api_outrights.py` are ordinary structures.
* Exceptions that the source can actually raise at the studied
  boundaries are modelled with `Except String _`.
-/

set_option maxHeartbeats 1000000

/-! ## String helpers (Python `str.lower` and the `in` substring test) -/

/-- Models Python `s.lower()` (the source only lowercases ASCII market
keys and league names). -/
def lowerStr (s : String) : String :=
  String.mk (s.data.map Char.toLower)

/-- Auxiliary recursion for the Python substring test `pat in s`:
true iff `pat` occurs contiguously in the list. -/
def strContainsAux (pat : List Char) : List Char → Bool
  | [] => pat.isPrefixOf []
  | c :: rest => pat.isPrefixOf (c :: rest) || strContainsAux pat rest

/-- Models the Python substring test `pat in s` on strings. -/
def containsStr (pat s : String) : Bool :=
  strContainsAux pat.data s.data

/-! ## Outrights scorer: data model (`api_outrights.py`, pydantic models) -/

/-- Models pydantic `Outcome`: a name and a decimal-odds price.  pydantic
validates `price` to a float, so the price is a plain rational here (the
defensive `float(outcome.price)` conversion in `_flatten_candidates`
cannot fail on validated data). -/
structure Outcome where
  name : String
  price : ℚ
  deriving DecidableEq

/-- Models pydantic `Market`: a key and a list of outcomes. -/
structure Market where
  key : String
  outcomes : List Outcome
  deriving DecidableEq

/-- Models pydantic `Bookmaker`: a title and a list of markets. -/
structure Bookmaker where
  title : String
  markets : List Market
  deriving DecidableEq

/-- Models pydantic `Event` for the outrights scorer.  `commence_time`
is the instant in seconds since the epoch (UTC-normalised). -/
structure Event where
  id : Option String
  sport_key : Option String
  sport_title : Option String
  commence_time : Option ℚ
  bookmakers : List Bookmaker
  deriving DecidableEq

/-- Models pydantic `OutrightsResponse`. -/
structure OutrightsResponse where
  ev : ℚ
  selection_name : String
  selection_key : Option String
  price : ℚ
  bookmaker_title : String
  edge_reason : String
  deriving DecidableEq

/-- Models the `OUTRIGHTS_PRIORITY` dict: tournament key to priority
tier; `none` models a missing key. -/
def OUTRIGHTS_PRIORITY (key : String) : Option String :=
  if key = "soccer_fifa_world_cup_winner" then some ("alta")
  else if key = "soccer_uefa_champions_league_winner" then some ("alta")
  else if key = "soccer_uefa_european_championship_winner" then some ("alta")
  else if key = "soccer_copa_america_winner" then some ("media")
  else if key = "soccer_uefa_europa_league_winner" then some ("media")
  else none

/-- Models `_priority_factor`: `if not sport_key: 0.4`, then the table
lookup with default `"baja"`, mapping alta/media/else to 1.0/0.7/0.4. -/
def _priority_factor (sport_key : Option String) : ℚ :=
  match sport_key with
  | none => 2/5
  | some k =>
    if k = "" then 2/5
    else
      let level := (OUTRIGHTS_PRIORITY k).getD ("baja")
      if level = "alta" then 1
      else if level = "media" then 7/10
      else 2/5

/-- Models `_time_factor`: step function of `delta_days`, the signed
distance in days from `now` to the commence time. -/
def _time_factor (now : ℚ) (commence_time : Option ℚ) : ℚ :=
  match commence_time with
  | none => 0
  | some t =>
    let delta_days := (t - now) / 86400
    if delta_days ≤ 0 then 0
    else if 365 < delta_days then 1/10
    else if 30 < delta_days then 2/5
    else if 7 < delta_days then 7/10
    else 1

/-- Models `_price_factor`: the step function of decimal odds, written
with exactly the band tests of the source (`1.3 = 13/10`, etc.). -/
def _price_factor (price : ℚ) : ℚ :=
  if price ≤ 13/10 ∨ 200 < price then 0
  else if 13/10 < price ∧ price ≤ 5/2 then 1/2
  else if 5/2 < price ∧ price ≤ 6 then 1
  else if 6 < price ∧ price ≤ 15 then 4/5
  else if 15 < price ∧ price ≤ 30 then 1/2
  else if 30 < price ∧ price ≤ 60 then 3/10
  else 1/5

/-- Models `max(0.0, min(1.0, score))` from `_compute_ev_raw`. -/
def clamp01 (x : ℚ) : ℚ := max 0 (min 1 x)

/-- Models Python `round(x, 3)` on exact rationals: scale by 1000, round
to the nearest integer, scale back.  (Mathlib `round` rounds half away
from the floor; Python uses half-to-even on binary floats — the two can
differ only at exact half-thousandths, which no claim depends on.) -/
def round3 (x : ℚ) : ℚ := ((round (x * 1000) : ℤ) : ℚ) / 1000

/-- Models `_compute_ev_raw`: the weighted score `0.4*time + 0.4*price +
0.2*priority`, clamped to `[0,1]`, scaled by `0.25` and rounded to three
decimals. -/
def _compute_ev_raw (time_f price_f priority_f : ℚ) : ℚ :=
  round3 (1/4 * clamp01 (2/5 * time_f + 2/5 * price_f + 1/5 * priority_f))

/-! ## Arithmetic helper lemmas for `round3` and `clamp01` -/

lemma round3_mono {x y : ℚ} (h : x ≤ y) : round3 x ≤ round3 y := by
  unfold round3
  have hr : round (x * 1000) ≤ round (y * 1000) := by
    rw [round_eq, round_eq]
    exact Int.floor_le_floor (by linarith)
  have hc : ((round (x * 1000) : ℤ) : ℚ) ≤ ((round (y * 1000) : ℤ) : ℚ) := by
    exact_mod_cast hr
  linarith

lemma round3_nonneg {x : ℚ} (h : 0 ≤ x) : 0 ≤ round3 x := by
  unfold round3
  have hr : (0 : ℤ) ≤ round (x * 1000) := by
    rw [round_eq]
    exact Int.floor_nonneg.mpr (by linarith)
  have hc : (0 : ℚ) ≤ ((round (x * 1000) : ℤ) : ℚ) := by exact_mod_cast hr
  linarith

lemma round3_le_quarter {x : ℚ} (h : x ≤ 1/4) : round3 x ≤ 1/4 := by
  unfold round3
  have h250 : round ((250 : ℚ)) = (250 : ℤ) := by
    rw [round_eq]
    rw [Int.floor_eq_iff]
    constructor <;> norm_num
  have hr : round (x * 1000) ≤ (250 : ℤ) := by
    rw [← h250]
    rw [round_eq, round_eq]
    exact Int.floor_le_floor (by linarith)
  have hc : ((round (x * 1000) : ℤ) : ℚ) ≤ (250 : ℚ) := by exact_mod_cast hr
  linarith

lemma clamp01_nonneg (x : ℚ) : 0 ≤ clamp01 x := le_max_left 0 _

lemma clamp01_le_one (x : ℚ) : clamp01 x ≤ 1 :=
  max_le (by norm_num) (min_le_left 1 x)

lemma clamp01_mono {x y : ℚ} (h : x ≤ y) : clamp01 x ≤ clamp01 y :=
  max_le_max le_rfl (min_le_min le_rfl h)

lemma compute_scaled_mono {s t : ℚ} (h : s ≤ t) :
    round3 (1/4 * clamp01 s) ≤ round3 (1/4 * clamp01 t) := by
  apply round3_mono
  have := clamp01_mono h
  linarith

lemma compute_ev_raw_bounds (t p pr : ℚ) :
    0 ≤ _compute_ev_raw t p pr ∧ _compute_ev_raw t p pr ≤ 1/4 := by
  unfold _compute_ev_raw
  constructor
  · apply round3_nonneg
    have := clamp01_nonneg (2/5 * t + 2/5 * p + 1/5 * pr)
    linarith
  · apply round3_le_quarter
    have := clamp01_le_one (2/5 * t + 2/5 * p + 1/5 * pr)
    linarith

/-! ## Claim C3: the price-factor step function -/

/-- Claim C3: for every odds price `p`, `_price_factor p` lies in
`{0, 0.2, 0.3, 0.5, 0.8, 1}`, is zero iff `p ≤ 1.3` or `p > 200`, and
takes the claimed value on each intermediate band. -/
theorem price_factor_bands (p : ℚ) :
    (_price_factor p = 0 ∨ _price_factor p = 1/5 ∨ _price_factor p = 3/10 ∨
      _price_factor p = 1/2 ∨ _price_factor p = 4/5 ∨ _price_factor p = 1) ∧
    (_price_factor p = 0 ↔ p ≤ 13/10 ∨ 200 < p) ∧
    (13/10 < p ∧ p ≤ 5/2 → _price_factor p = 1/2) ∧
    (5/2 < p ∧ p ≤ 6 → _price_factor p = 1) ∧
    (6 < p ∧ p ≤ 15 → _price_factor p = 4/5) ∧
    (15 < p ∧ p ≤ 30 → _price_factor p = 1/2) ∧
    (30 < p ∧ p ≤ 60 → _price_factor p = 3/10) ∧
    (60 < p ∧ p ≤ 200 → _price_factor p = 1/5) := by
  refine ⟨?_, ?_, ?_, ?_, ?_, ?_, ?_, ?_⟩
  · unfold _price_factor
    split_ifs <;> norm_num
  · unfold _price_factor
    split_ifs with h1 h2 h3 h4 h5 h6
    · exact iff_of_true rfl h1
    · exact iff_of_false (by norm_num) h1
    · exact iff_of_false (by norm_num) h1
    · exact iff_of_false (by norm_num) h1
    · exact iff_of_false (by norm_num) h1
    · exact iff_of_false (by norm_num) h1
    · exact iff_of_false (by norm_num) h1
  · rintro ⟨ha, hb⟩
    unfold _price_factor
    rw [if_neg (by push_neg; constructor <;> linarith), if_pos ⟨ha, hb⟩]
  · rintro ⟨ha, hb⟩
    unfold _price_factor
    rw [if_neg (by push_neg; constructor <;> linarith),
      if_neg (by rintro ⟨h1, h2⟩; linarith), if_pos ⟨ha, hb⟩]
  · rintro ⟨ha, hb⟩
    unfold _price_factor
    rw [if_neg (by push_neg; constructor <;> linarith),
      if_neg (by rintro ⟨h1, h2⟩; linarith),
      if_neg (by rintro ⟨h1, h2⟩; linarith), if_pos ⟨ha, hb⟩]
  · rintro ⟨ha, hb⟩
    unfold _price_factor
    rw [if_neg (by push_neg; constructor <;> linarith),
      if_neg (by rintro ⟨h1, h2⟩; linarith),
      if_neg (by rintro ⟨h1, h2⟩; linarith),
      if_neg (by rintro ⟨h1, h2⟩; linarith), if_pos ⟨ha, hb⟩]
  · rintro ⟨ha, hb⟩
    unfold _price_factor
    rw [if_neg (by push_neg; constructor <;> linarith),
      if_neg (by rintro ⟨h1, h2⟩; linarith),
      if_neg (by rintro ⟨h1, h2⟩; linarith),
      if_neg (by rintro ⟨h1, h2⟩; linarith),
      if_neg (by rintro ⟨h1, h2⟩; linarith), if_pos ⟨ha, hb⟩]
  · rintro ⟨ha, hb⟩
    unfold _price_factor
    rw [if_neg (by push_neg; constructor <;> linarith),
      if_neg (by rintro ⟨h1, h2⟩; linarith),
      if_neg (by rintro ⟨h1, h2⟩; linarith),
      if_neg (by rintro ⟨h1, h2⟩; linarith),
      if_neg (by rintro ⟨h1, h2⟩; linarith),
      if_neg (by rintro ⟨h1, h2⟩; linarith)]

/-- Witness for C3: the theorem evaluated on one input per band. -/
theorem price_factor_bands_witness :
    _price_factor 2 = 1/2 ∧ _price_factor 4 = 1 ∧ _price_factor 10 = 4/5 ∧
    _price_factor 20 = 1/2 ∧ _price_factor 50 = 3/10 ∧
    _price_factor 100 = 1/5 ∧ _price_factor 1 = 0 ∧ _price_factor 300 = 0 :=
  ⟨(price_factor_bands 2).2.2.1 (by norm_num),
   (price_factor_bands 4).2.2.2.1 (by norm_num),
   (price_factor_bands 10).2.2.2.2.1 (by norm_num),
   (price_factor_bands 20).2.2.2.2.2.1 (by norm_num),
   (price_factor_bands 50).2.2.2.2.2.2.1 (by norm_num),
   (price_factor_bands 100).2.2.2.2.2.2.2 (by norm_num),
   (price_factor_bands 1).2.1.mpr (by norm_num),
   (price_factor_bands 300).2.1.mpr (by norm_num)⟩

/-! ## Claim C4: `_compute_ev_raw` is monotone and bounded -/

/-- Claim C4: `_compute_ev_raw` is monotonically non-decreasing in each
argument independently, and its result lies in `[0, 0.25]`. -/
theorem compute_ev_monotone_bounded (t t' p p' pr pr' : ℚ) :
    (t ≤ t' → _compute_ev_raw t p pr ≤ _compute_ev_raw t' p pr) ∧
    (p ≤ p' → _compute_ev_raw t p pr ≤ _compute_ev_raw t p' pr) ∧
    (pr ≤ pr' → _compute_ev_raw t p pr ≤ _compute_ev_raw t p pr') ∧
    0 ≤ _compute_ev_raw t p pr ∧ _compute_ev_raw t p pr ≤ 1/4 := by
  refine ⟨fun h => ?_, fun h => ?_, fun h => ?_, compute_ev_raw_bounds t p pr⟩ <;>
    exact compute_scaled_mono (by linarith)

/-- Witness for C4: each monotonicity hypothesis discharged at `0 ≤ 1`,
plus the bounds at a concrete point. -/
theorem compute_ev_monotone_bounded_witness :
    _compute_ev_raw 0 0 0 ≤ _compute_ev_raw 1 0 0 ∧
    _compute_ev_raw 0 0 0 ≤ _compute_ev_raw 0 1 0 ∧
    _compute_ev_raw 0 0 0 ≤ _compute_ev_raw 0 0 1 ∧
    0 ≤ _compute_ev_raw 0 0 0 ∧ _compute_ev_raw 0 0 0 ≤ 1/4 :=
  ⟨(compute_ev_monotone_bounded 0 1 0 0 0 0).1 (by norm_num),
   (compute_ev_monotone_bounded 0 0 0 1 0 0).2.1 (by norm_num),
   (compute_ev_monotone_bounded 0 0 0 0 0 1).2.2.1 (by norm_num),
   (compute_ev_monotone_bounded 0 0 0 0 0 0).2.2.2⟩

/-! ## Outrights scorer: candidate flattening and selection
(`_flatten_candidates` and the body of `score_outright_event`) -/

/-- Models a flattened candidate tuple
`(bookmaker_title, outcome_name, price, market_key)`; `key` is the
already-lowercased market key, as stored by `_flatten_candidates`. -/
structure Candidate where
  title : String
  name : String
  price : ℚ
  key : String
  deriving DecidableEq

/-- Models the inner outcome loop of `_flatten_candidates`: prices
`≤ 1.0` are skipped (`continue`), valid outcomes become candidates in
order.  (On pydantic-validated data the `float(outcome.price)`
conversion cannot raise, so the `try/except` there is inert.) -/
def candsOfOutcomes (title : String) (key : String) : List Outcome → List Candidate
  | [] => []
  | o :: os =>
    if o.price ≤ 1 then candsOfOutcomes title key os
    else { title := title, name := o.name, price := o.price, key := key } ::
      candsOfOutcomes title key os

/-- Models the market loop body of `_flatten_candidates`: markets whose
lowercased key neither contains `"outright"` nor is one of
`"outrights"`/`"winner"` are skipped. -/
def candsOfMarket (title : String) (mk : Market) : List Candidate :=
  let key := lowerStr mk.key
  if strContainsAux ("outright").data key.data = false ∧
      key ≠ "outrights" ∧ key ≠ "winner" then []
  else candsOfOutcomes title key mk.outcomes

/-- Models the bookmaker loop of `_flatten_candidates`; an empty
bookmaker title defaults to `"Unknown"` (Python `bm.title or "Unknown"`). -/
def candsOfBookmaker (bm : Bookmaker) : List Candidate :=
  ((bm.markets.map
    (candsOfMarket (if bm.title = "" then "Unknown" else bm.title)))).join

/-- Models `_flatten_candidates`: all candidates of the event, in
bookmaker/market/outcome iteration order. -/
def _flatten_candidates (event : Event) : List Candidate :=
  ((event.bookmakers.map candsOfBookmaker)).join

/-- Models the per-candidate EV `_compute_ev_raw(time_f, price_f(price),
priority_f)` computed inside the selection loop. -/
def candEv (time_f priority_f : ℚ) (c : Candidate) : ℚ :=
  _compute_ev_raw time_f (_price_factor c.price) priority_f

/-- Models the per-candidate EV with the per-event factors spelled out:
this is the value `ev_val` that `score_outright_event` computes for
candidate `c` of `event`. -/
def candidateEv (now : ℚ) (event : Event) (c : Candidate) : ℚ :=
  candEv (_time_factor now event.commence_time) (_priority_factor event.sport_key) c

/-- Models the `for` loop of `score_outright_event` that tracks
`best`/`best_ev`, updating on the strict comparison `ev_val > best_ev`. -/
def bestLoop (time_f priority_f : ℚ) :
    List Candidate → Option Candidate → ℚ → Option Candidate × ℚ
  | [], best, best_ev => (best, best_ev)
  | c :: rest, best, best_ev =>
    if best_ev < candEv time_f priority_f c then
      bestLoop time_f priority_f rest (some c) (candEv time_f priority_f c)
    else
      bestLoop time_f priority_f rest best best_ev

/-- Models the zero-EV response returned when `event.bookmakers` is empty. -/
def noBookmakersResponse : OutrightsResponse :=
  { ev := 0, selection_name := "N/A", selection_key := none, price := 1,
    bookmaker_title := "N/A",
    edge_reason := "Sin bookmakers en el evento; no se puede evaluar EV." }

/-- Models the zero-EV response returned when no candidate passes the
market/price filter. -/
def noOutcomesResponse : OutrightsResponse :=
  { ev := 0, selection_name := "N/A", selection_key := none, price := 1,
    bookmaker_title := "N/A",
    edge_reason := "Sin outcomes válidos de outrights en el evento." }

/-- Models the zero-EV response returned when `best is None or
best_ev <= 0`. -/
def noValueResponse : OutrightsResponse :=
  { ev := 0, selection_name := "N/A", selection_key := none, price := 1,
    bookmaker_title := "N/A",
    edge_reason := "Modelo heurístico no encontró valor en este torneo." }

/-- Pads a digit string to `k` characters with leading zeros (used to
model fixed-width float formatting). -/
def padZeros (k : Nat) (s : String) : String :=
  String.mk (List.replicate (k - s.length) '0') ++ s

/-- Models Python fixed-point formatting `f"{q:.prec}f"` on rationals:
round to `prec` decimals and print.  (Binary-float formatting can differ
in the last digit at exact ties; no claim depends on the digits.) -/
def fmtFixed (prec : Nat) (q : ℚ) : String :=
  let scaled : ℤ := round (q * (10 : ℚ) ^ prec)
  let n : Nat := scaled.natAbs
  (if scaled < 0 then "-" else "") ++ Nat.repr (n / 10 ^ prec) ++ "." ++
    padZeros prec (Nat.repr (n % 10 ^ prec))

/-- Models the `days_txt` computation of `score_outright_event`: the
days-to-start count formatted to one decimal, or `"desconocido"`. -/
def daysTxt (now : ℚ) (event : Event) : String :=
  match event.commence_time with
  | some t => fmtFixed 1 ((t - now) / 86400) ++ " días"
  | none => "desconocido"

/-- Models Python `a or b` on an optional string whose empty value is
falsy (`event.sport_title or event.sport_key or "torneo"`). -/
def orStr (a : Option String) (b : String) : String :=
  match a with
  | none => b
  | some s => if s = "" then b else s

/-- Models the successful response of `score_outright_event`: the chosen
candidate `b` with its EV and the human-readable `edge_reason`. -/
def happyResponse (now : ℚ) (event : Event) (b : Candidate) (best_ev : ℚ) :
    OutrightsResponse :=
  { ev := best_ev,
    selection_name := b.name,
    selection_key := some (b.key ++ ":" ++ b.name),
    price := b.price,
    bookmaker_title := b.title,
    edge_reason :=
      "Torneo: " ++ orStr event.sport_title (orStr event.sport_key ("torneo")) ++
      ". Comienza en " ++ daysTxt now event ++
      ". Selección: " ++ b.name ++ " @ " ++ fmtFixed 2 b.price ++
      " en " ++ b.title ++
      ". Factores considerados: ventana temporal, rango de cuota y prioridad del torneo." }

/-- Models `score_outright_event` applied to an already-validated
`Event` (the body after `Event.parse_obj` succeeded). -/
def score_outright_event (now : ℚ) (event : Event) : OutrightsResponse :=
  if event.bookmakers = [] then noBookmakersResponse
  else if _flatten_candidates event = [] then noOutcomesResponse
  else
    match bestLoop (_time_factor now event.commence_time)
        (_priority_factor event.sport_key) (_flatten_candidates event)
        none (-1) with
    | (none, _) => noValueResponse
    | (some b, best_ev) =>
      if best_ev ≤ 0 then noValueResponse
      else happyResponse now event b best_ev

/-- Models the raw event dictionary handed to `score_outright_event`:
pydantic `Event.parse_obj` either yields a validated `Event` or raises a
`ValidationError` whose text is `err` (for example when `bookmakers` is
not a list). -/
inductive EventDict where
  | valid (e : Event)
  | invalid (err : String)
  deriving DecidableEq

/-- Models `score_outright_event` on a raw dictionary: `Event.parse_obj`
runs first and its `ValidationError` propagates to the caller
(`score_outright_event` itself has no exception handler). -/
def score_outright_event_dict (now : ℚ) (d : EventDict) :
    Except String OutrightsResponse :=
  match d with
  | .valid e => .ok (score_outright_event now e)
  | .invalid err => .error err

/-- Models the `except Exception` branch of `ev_outrights_score`: the
degraded zero-EV response embedding the exception text. -/
def errorResponse (msg : String) : OutrightsResponse :=
  { ev := 0, selection_name := "Error", selection_key := none, price := 1,
    bookmaker_title := "N/A", edge_reason := "error_modelo: " ++ msg }

/-- Models the HTTP boundary `ev_outrights_score`: it calls
`score_outright_event` under `try` and converts any exception into
`errorResponse`. -/
def ev_outrights_score (now : ℚ) (d : EventDict) : OutrightsResponse :=
  match score_outright_event_dict now d with
  | .ok r => r
  | .error msg => errorResponse msg

/-! ## Match EV scorer: data model (`simple_ev_model.py`) -/

/-- Models the raw value found in one of the aliased time fields of a
match event, as seen by `_minutes_to_start`:
`falsy` is a falsy value (empty string, `0`, …) that the `or` chain and
the `if not iso` guard skip; `unparseable` is a truthy value whose
`datetime.fromisoformat(str(...))` parse raises (caught by the local
`except`, yielding no time signal); `parseable t` is a truthy ISO
timestamp denoting the instant `t` (seconds since the epoch, naive
timestamps already normalised to UTC, trailing `Z` already handled). -/
inductive TimeVal where
  | falsy
  | unparseable
  | parseable (t : ℚ)
  deriving DecidableEq

/-- Python truthiness of a raw time-field value. -/
def timeTruthy : TimeVal → Bool
  | .falsy => false
  | _ => true

/-- Models Python `a or b` over two optional raw time values: the first
truthy operand wins, otherwise the second operand (which may itself be
falsy or absent). -/
def orTime (a b : Option TimeVal) : Option TimeVal :=
  match a with
  | some v => if timeTruthy v then some v else b
  | none => b

/-- Models a match event dictionary at the spec's data-model types: the
optional fields the scorer reads.  `fixture_date` stands for
`(ev.get("fixture") or {}).get("date")`. -/
structure MatchEvent where
  fixture_id : Option String
  market : Option String
  commence_time : Option TimeVal
  tsISO : Option TimeVal
  fixture_date : Option TimeVal
  date : Option TimeVal
  league : Option String
  deriving DecidableEq

/-- An event with every field absent (all `dict.get` calls miss). -/
def emptyMatchEvent : MatchEvent :=
  { fixture_id := none, market := none, commence_time := none,
    tsISO := none, fixture_date := none, date := none, league := none }

/-- Models `_minutes_to_start`: take the first truthy value among the
four aliased time fields; a falsy or absent result, or a parse failure,
yields `none`; otherwise the signed minute distance from `now`. -/
def _minutes_to_start (now : ℚ) (e : MatchEvent) : Option ℚ :=
  match orTime e.commence_time (orTime e.tsISO (orTime e.fixture_date e.date)) with
  | none => none
  | some .falsy => none
  | some .unparseable => none
  | some (.parseable t) => some ((t - now) / 60)

/-- Models `_is_big_league`: false on a falsy name, otherwise a
case-insensitive substring test against the fixed keyword list. -/
def _is_big_league (name : String) : Bool :=
  if name = "" then false
  else
    (["world cup", "champions league", "premier league", "la liga",
      "serie a", "bundesliga", "ligue 1", "europa league"]).any
      (fun k => containsStr k (lowerStr name))

/-- Models `_score_single`: base `0.01`, the time-window bump, the big-
league bump, then the clamp `max(0.0, min(0.10, base))`. -/
def _score_single (now : ℚ) (e : MatchEvent) : ℚ :=
  let base : ℚ := 1/100
  let mins := _minutes_to_start now e
  let league := (match e.league with | none => "" | some s => s)
  let base := base + (match mins with
    | some m =>
      if 20 ≤ m ∧ m ≤ 60 then 3/100
      else if 60 < m ∧ m ≤ 180 then 1/40
      else if 180 < m ∧ m ≤ 360 then 1/50
      else if 360 < m ∧ m ≤ 1440 then 3/200
      else 0
    | none => 0)
  let base := base + (if _is_big_league league then 3/200 else 0)
  max 0 (min (1/10) base)

/-- Models the `EvPrediction` dataclass; `meta_reasons` is the
`meta["reasons"]` list. -/
structure EvPrediction where
  fixture_id : String
  market : String
  ev : ℚ
  prob_model : ℚ
  version : String
  meta_reasons : List String
  deriving DecidableEq

/-- Models one iteration of the `score_events` loop at positional index
`idx`: fixture id and market with their truthiness fallbacks, the score,
and the clamped model probability `0.5 + ev`. -/
def scoreOne (now : ℚ) (idx : Nat) (e : MatchEvent) : EvPrediction :=
  { fixture_id :=
      (match e.fixture_id with
        | some s => if s = "" then Nat.repr idx else s
        | none => Nat.repr idx),
    market :=
      (match e.market with
        | some s => if s = "" then "h2h" else s
        | none => "h2h"),
    ev := _score_single now e,
    prob_model := min (99/100) (max (1/100) (1/2 + _score_single now e)),
    version := "lab_v1_time_league",
    meta_reasons := ["time_window", "league_importance"] }

/-- Models the `for idx, ev in enumerate(events)` loop of
`score_events`, carrying the running index. -/
def score_events_aux (now : ℚ) (idx : Nat) : List MatchEvent → List EvPrediction
  | [] => []
  | e :: es => scoreOne now idx e :: score_events_aux now (idx + 1) es

/-- Models `score_events`: one prediction per input event, in order. -/
def score_events (now : ℚ) (events : List MatchEvent) : List EvPrediction :=
  score_events_aux now 0 events

/-- Written from the claim text of C7 (the spec's time-window bump
table), to be compared with the bump computed inside `_score_single`. -/
def specTimeBump (mins : Option ℚ) : ℚ :=
  match mins with
  | some m =>
    if 20 ≤ m ∧ m ≤ 60 then 3/100
    else if 60 < m ∧ m ≤ 180 then 1/40
    else if 180 < m ∧ m ≤ 360 then 1/50
    else if 360 < m ∧ m ≤ 1440 then 3/200
    else 0
  | none => 0

/-- Written from the claim text of C7: the `+0.015` big-league bump as a
function of the event's league field (absent treated as `""`). -/
def specLeagueBump (e : MatchEvent) : ℚ :=
  if _is_big_league (match e.league with | none => "" | some s => s) then 3/200 else 0

/-! ## Helper lemmas about the outrights selection loop and filter -/

lemma mem_of_getElem_opt {α : Type} :
    ∀ (l : List α) (i : Nat) (a : α), l[i]? = some a → a ∈ l := by
  intro l
  induction l with
  | nil => intro i a h; simp at h
  | cons x xs ih =>
    intro i a h
    cases i with
    | zero =>
      simp only [List.getElem?_cons_zero, Option.some.injEq] at h
      rw [← h]; exact List.mem_cons_self x xs
    | succ n =>
      rw [List.getElem?_cons_succ] at h
      exact List.mem_cons_of_mem x (ih n a h)

lemma bestLoop_stay (tf prf : ℚ) :
    ∀ (cs : List Candidate) (b : Option Candidate) (e : ℚ),
      (∀ c ∈ cs, candEv tf prf c ≤ e) → bestLoop tf prf cs b e = (b, e) := by
  intro cs
  induction cs with
  | nil => intro b e _; rfl
  | cons c rest ih =>
    intro b e h
    simp only [bestLoop]
    rw [if_neg (not_lt.mpr (h c (List.mem_cons_self c rest)))]
    exact ih b e (fun d hd => h d (List.mem_cons_of_mem c hd))

lemma bestLoop_spec (tf prf : ℚ) :
    ∀ (cs : List Candidate) (b : Option Candidate) (e : ℚ),
      (∃ c, c ∈ cs ∧ e < candEv tf prf c) →
      ∃ (i : Nat) (c : Candidate), cs[i]? = some c ∧
        bestLoop tf prf cs b e = (some c, candEv tf prf c) ∧
        e < candEv tf prf c ∧
        (∀ (j : Nat) (d : Candidate), cs[j]? = some d →
          candEv tf prf d ≤ candEv tf prf c) ∧
        (∀ (j : Nat) (d : Candidate), j < i → cs[j]? = some d →
          candEv tf prf d < candEv tf prf c) := by
  intro cs
  induction cs with
  | nil =>
    rintro b e ⟨c, hc, _⟩
    exact absurd hc (List.not_mem_nil c)
  | cons c rest ih =>
    rintro b e ⟨c0, hc0, hlt0⟩
    by_cases hce : e < candEv tf prf c
    · by_cases hall : ∀ d ∈ rest, candEv tf prf d ≤ candEv tf prf c
      · refine ⟨0, c, by simp, ?_, hce, ?_, ?_⟩
        · simp only [bestLoop]
          rw [if_pos hce]
          exact bestLoop_stay tf prf rest (some c) (candEv tf prf c) hall
        · intro j d hj
          cases j with
          | zero =>
            simp only [List.getElem?_cons_zero, Option.some.injEq] at hj
            rw [← hj]
          | succ j' =>
            rw [List.getElem?_cons_succ] at hj
            exact hall d (mem_of_getElem_opt rest j' d hj)
        · intro j d hj _
          exact absurd hj (Nat.not_lt_zero j)
      · push_neg at hall
        obtain ⟨d0, hd0, hlt⟩ := hall
        obtain ⟨i', c', hget, hloop, hgt, hmax, hfirst⟩ :=
          ih (some c) (candEv tf prf c) ⟨d0, hd0, hlt⟩
        refine ⟨i' + 1, c', ?_, ?_, lt_trans hce hgt, ?_, ?_⟩
        · rw [List.getElem?_cons_succ]; exact hget
        · simp only [bestLoop]; rw [if_pos hce]; exact hloop
        · intro j d hj
          cases j with
          | zero =>
            simp only [List.getElem?_cons_zero, Option.some.injEq] at hj
            rw [← hj]; exact le_of_lt hgt
          | succ j' =>
            rw [List.getElem?_cons_succ] at hj
            exact hmax j' d hj
        · intro j d hj hget2
          cases j with
          | zero =>
            simp only [List.getElem?_cons_zero, Option.some.injEq] at hget2
            rw [← hget2]; exact hgt
          | succ j' =>
            rw [List.getElem?_cons_succ] at hget2
            exact hfirst j' d (Nat.lt_of_succ_lt_succ hj) hget2
    · have hc0' : c0 ∈ rest := by
        rcases List.mem_cons.mp hc0 with h | h
        · exfalso; rw [h] at hlt0; exact hce hlt0
        · exact h
      obtain ⟨i', c', hget, hloop, hgt, hmax, hfirst⟩ := ih b e ⟨c0, hc0', hlt0⟩
      have hle : candEv tf prf c ≤ e := not_lt.mp hce
      refine ⟨i' + 1, c', ?_, ?_, hgt, ?_, ?_⟩
      · rw [List.getElem?_cons_succ]; exact hget
      · simp only [bestLoop]; rw [if_neg hce]; exact hloop
      · intro j d hj
        cases j with
        | zero =>
          simp only [List.getElem?_cons_zero, Option.some.injEq] at hj
          rw [← hj]; exact le_of_lt (lt_of_le_of_lt hle hgt)
        | succ j' =>
          rw [List.getElem?_cons_succ] at hj
          exact hmax j' d hj
      · intro j d hj hget2
        cases j with
        | zero =>
          simp only [List.getElem?_cons_zero, Option.some.injEq] at hget2
          rw [← hget2]; exact lt_of_le_of_lt hle hgt
        | succ j' =>
          rw [List.getElem?_cons_succ] at hget2
          exact hfirst j' d (Nat.lt_of_succ_lt_succ hj) hget2

lemma bestLoop_snd (tf prf : ℚ) :
    ∀ (cs : List Candidate) (b : Option Candidate) (e : ℚ),
      (bestLoop tf prf cs b e).2 = e ∨
      ∃ c, c ∈ cs ∧ (bestLoop tf prf cs b e).2 = candEv tf prf c := by
  intro cs
  induction cs with
  | nil => intro b e; exact Or.inl rfl
  | cons c rest ih =>
    intro b e
    simp only [bestLoop]
    by_cases hce : e < candEv tf prf c
    · rw [if_pos hce]
      rcases ih (some c) (candEv tf prf c) with h | ⟨d, hd, h⟩
      · exact Or.inr ⟨c, List.mem_cons_self c rest, h⟩
      · exact Or.inr ⟨d, List.mem_cons_of_mem c hd, h⟩
    · rw [if_neg hce]
      rcases ih b e with h | ⟨d, hd, h⟩
      · exact Or.inl h
      · exact Or.inr ⟨d, List.mem_cons_of_mem c hd, h⟩

lemma flatten_of_no_bookmakers (event : Event) (h : event.bookmakers = []) :
    _flatten_candidates event = [] := by
  unfold _flatten_candidates
  rw [h]
  rfl

lemma score_outright_ev_range (now : ℚ) (event : Event) :
    0 ≤ (score_outright_event now event).ev ∧
      (score_outright_event now event).ev ≤ 1/4 := by
  unfold score_outright_event
  split_ifs with h1 h2
  · constructor <;> norm_num [noBookmakersResponse]
  · constructor <;> norm_num [noOutcomesResponse]
  · rcases hb : bestLoop (_time_factor now event.commence_time)
        (_priority_factor event.sport_key) (_flatten_candidates event)
        none (-1) with ⟨bo, ev⟩
    cases bo with
    | none => constructor <;> norm_num [noValueResponse]
    | some b =>
      dsimp only
      by_cases hev : ev ≤ 0
      · rw [if_pos hev]
        constructor <;> norm_num [noValueResponse]
      · rw [if_neg hev]
        push_neg at hev
        constructor
        · show 0 ≤ (happyResponse now event b ev).ev
          show 0 ≤ ev
          linarith
        · show (happyResponse now event b ev).ev ≤ 1/4
          show ev ≤ 1/4
          rcases bestLoop_snd (_time_factor now event.commence_time)
              (_priority_factor event.sport_key) (_flatten_candidates event)
              none (-1) with h | ⟨c, _, h⟩
          · rw [hb] at h
            dsimp only at h
            linarith
          · rw [hb] at h
            dsimp only at h
            rw [h]
            exact (compute_ev_raw_bounds (_time_factor now event.commence_time)
              (_price_factor c.price) (_priority_factor event.sport_key)).2

/-! ## Helper lemmas about the substring test -/

lemma isPrefixOf_refl_chars : ∀ l : List Char, l.isPrefixOf l = true := by
  intro l
  induction l with
  | nil => rfl
  | cons c rest ih => simp [List.isPrefixOf, ih]

lemma strContainsAux_self : ∀ l : List Char, strContainsAux l l = true := by
  intro l
  cases l with
  | nil => rfl
  | cons c rest => simp [strContainsAux, isPrefixOf_refl_chars]

lemma strContainsAux_append (pre l : List Char) :
    strContainsAux l (pre ++ l) = true := by
  induction pre with
  | nil => simpa using strContainsAux_self l
  | cons c rest ih => simp [strContainsAux, ih]

lemma string_data_append (a b : String) : (a ++ b).data = a.data ++ b.data := rfl

lemma containsStr_append_right (pre msg : String) :
    containsStr msg (pre ++ msg) = true := by
  unfold containsStr
  rw [string_data_append]
  exact strContainsAux_append pre.data msg.data

/-! ## Claim C1 (corrected): totality lives at the boundary -/

/-- Counterexample to C1 as stated: `score_outright_event` does NOT
return a prediction for every input event dictionary — on a dictionary
rejected by pydantic validation (e.g. a non-list `bookmakers` value),
`Event.parse_obj` raises and the exception propagates to the caller of
`score_outright_event`; the `try/except` that degrades it lives one
level up, in `ev_outrights_score`. -/
theorem score_outright_event_raises_on_invalid_dict :
    score_outright_event_dict 0
      (EventDict.invalid ("1 validation error for Event: bookmakers")) =
    Except.error ("1 validation error for Event: bookmakers") := rfl

/-- Claim C1 (amended): the boundary `ev_outrights_score` is total — on
a valid dictionary it returns exactly the scorer's prediction, whose EV
is well-formed (within `[0, 0.25]`); on a dictionary whose validation
fails, the exception is degraded to a zero-EV prediction with selection
name `"Error"` whose reason embeds the error text.  It is
`ev_outrights_score`, not `score_outright_event`, that never raises. -/
theorem ev_outrights_boundary_total (now : ℚ) (d : EventDict) :
    (∀ e, d = EventDict.valid e →
      ev_outrights_score now d = score_outright_event now e ∧
      0 ≤ (ev_outrights_score now d).ev ∧
      (ev_outrights_score now d).ev ≤ 1/4) ∧
    (∀ msg, d = EventDict.invalid msg →
      ev_outrights_score now d = errorResponse msg ∧
      (ev_outrights_score now d).ev = 0 ∧
      (ev_outrights_score now d).selection_name = "Error" ∧
      containsStr msg (ev_outrights_score now d).edge_reason = true) := by
  constructor
  · rintro e rfl
    exact ⟨rfl, score_outright_ev_range now e⟩
  · rintro msg rfl
    refine ⟨rfl, rfl, rfl, ?_⟩
    show containsStr msg ("error_modelo: " ++ msg) = true
    exact containsStr_append_right ("error_modelo: ") msg

/-- Concrete outcome for the witness event: Brazil at odds 4.0. -/
def wOutcome : Outcome := { name := "Brazil", price := 4 }

/-- Concrete market for the witness event: key `"winner"`. -/
def wMarket : Market := { key := "winner", outcomes := [wOutcome] }

/-- Concrete bookmaker for the witness event. -/
def wBookmaker : Bookmaker := { title := "Bet365", markets := [wMarket] }

/-- Concrete event used by several witnesses: one bookmaker, one
`"winner"` market, one outcome Brazil at odds 4.0, commence time three
days after `now = 0` (the worked example of the spec, §8). -/
def wEvent : Event :=
  { id := none, sport_key := none, sport_title := some ("Test Cup"),
    commence_time := some 259200, bookmakers := [wBookmaker] }

/-- The single candidate that `_flatten_candidates` extracts from
`wEvent`. -/
def wCand : Candidate :=
  { title := "Bet365", name := "Brazil", price := 4, key := "winner" }

lemma wEvent_flatten : _flatten_candidates wEvent = [wCand] := rfl

/-- Witness for C1 (amended): both branches of the boundary exercised at
concrete inputs. -/
theorem ev_outrights_boundary_total_witness :
    ev_outrights_score 0 (EventDict.valid wEvent) = score_outright_event 0 wEvent ∧
    ev_outrights_score 0 (EventDict.invalid ("boom")) = errorResponse ("boom") ∧
    (ev_outrights_score 0 (EventDict.invalid ("boom"))).selection_name = "Error" ∧
    containsStr ("boom")
      (ev_outrights_score 0 (EventDict.invalid ("boom"))).edge_reason = true :=
  ⟨((ev_outrights_boundary_total 0 (EventDict.valid wEvent)).1 wEvent rfl).1,
   ((ev_outrights_boundary_total 0 (EventDict.invalid ("boom"))).2 ("boom") rfl).1,
   ((ev_outrights_boundary_total 0 (EventDict.invalid ("boom"))).2 ("boom") rfl).2.2.1,
   ((ev_outrights_boundary_total 0 (EventDict.invalid ("boom"))).2 ("boom") rfl).2.2.2⟩

/-! ## Claim C2: first-seen strict-max candidate selection -/

/-- Selection property of C2, spelled out: some candidate at position
`i` carries the maximal per-candidate EV, every strictly earlier
candidate has strictly smaller EV (so exact ties are won by the first
seen), and the scorer returns the no-value response when that maximal EV
is `≤ 0` and otherwise the successful response built from exactly that
candidate and EV. -/
def selectsFirstMaxProp (now : ℚ) (event : Event) : Prop :=
  ∃ (i : Nat) (c : Candidate), (_flatten_candidates event)[i]? = some c ∧
    (∀ (j : Nat) (d : Candidate), (_flatten_candidates event)[j]? = some d →
      candidateEv now event d ≤ candidateEv now event c) ∧
    (∀ (j : Nat) (d : Candidate), j < i →
      (_flatten_candidates event)[j]? = some d →
      candidateEv now event d < candidateEv now event c) ∧
    (candidateEv now event c ≤ 0 →
      score_outright_event now event = noValueResponse) ∧
    (0 < candidateEv now event c →
      score_outright_event now event =
        happyResponse now event c (candidateEv now event c))

/-- Claim C2: on every event with a non-empty candidate list,
`score_outright_event` selects the first-seen candidate of strictly
greatest EV, and returns the fixed no-value zero-EV prediction when the
best EV is not positive. -/
theorem score_outright_selects_first_max (now : ℚ) (event : Event)
    (h : _flatten_candidates event ≠ []) : selectsFirstMaxProp now event := by
  unfold selectsFirstMaxProp candidateEv
  have hbm : ¬event.bookmakers = [] := by
    intro hb
    exact h (flatten_of_no_bookmakers event hb)
  obtain ⟨c0, cs0, hcs⟩ := List.exists_cons_of_ne_nil h
  have hex : ∃ cc, cc ∈ _flatten_candidates event ∧
      (-1 : ℚ) < candEv (_time_factor now event.commence_time)
        (_priority_factor event.sport_key) cc := by
    refine ⟨c0, ?_, ?_⟩
    · rw [hcs]; exact List.mem_cons_self c0 cs0
    · have h0 : (0:ℚ) ≤ candEv (_time_factor now event.commence_time)
          (_priority_factor event.sport_key) c0 :=
        (compute_ev_raw_bounds (_time_factor now event.commence_time)
          (_price_factor c0.price) (_priority_factor event.sport_key)).1
      linarith
  obtain ⟨i, c, hget, hloop, _, hmax, hfirst⟩ :=
    bestLoop_spec (_time_factor now event.commence_time)
      (_priority_factor event.sport_key) (_flatten_candidates event)
      none (-1) hex
  refine ⟨i, c, hget, hmax, hfirst, ?_, ?_⟩
  · intro hle
    unfold score_outright_event
    rw [if_neg hbm, if_neg h, hloop]
    exact if_pos hle
  · intro hpos
    unfold score_outright_event
    rw [if_neg hbm, if_neg h, hloop]
    exact if_neg (not_le.mpr hpos)

/-- Witness for C2: the concrete one-candidate event. -/
theorem score_outright_selects_first_max_witness :
    _flatten_candidates wEvent ≠ [] ∧ selectsFirstMaxProp 0 wEvent :=
  ⟨by rw [wEvent_flatten]; exact List.cons_ne_nil wCand [],
   score_outright_selects_first_max 0 wEvent
     (by rw [wEvent_flatten]; exact List.cons_ne_nil wCand [])⟩

/-! ## Claim C5: the candidate filter invariant -/

lemma candsOfOutcomes_mem (title key : String) :
    ∀ (os : List Outcome) (c : Candidate), c ∈ candsOfOutcomes title key os →
      ∃ o, o ∈ os ∧ 1 < o.price ∧
        c = { title := title, name := o.name, price := o.price, key := key } := by
  intro os
  induction os with
  | nil => intro c hc; simp [candsOfOutcomes] at hc
  | cons o rest ih =>
    intro c hc
    simp only [candsOfOutcomes] at hc
    split_ifs at hc with hp
    · obtain ⟨o', ho', hpo', rfl⟩ := ih c hc
      exact ⟨o', List.mem_cons_of_mem o ho', hpo', rfl⟩
    · rcases List.mem_cons.mp hc with hh | hh
      · exact ⟨o, List.mem_cons_self o rest, not_le.mp hp, hh⟩
      · obtain ⟨o', ho', hpo', rfl⟩ := ih c hh
        exact ⟨o', List.mem_cons_of_mem o ho', hpo', rfl⟩

/-- Provenance property of C5: a candidate has price `> 1` and comes
from a market (of some bookmaker of the event) whose lowercased key
contains `"outright"` or equals `"winner"`; its name, price and stored
key are those of an actual outcome of that market. -/
def candidateProvenance (event : Event) (c : Candidate) : Prop :=
  1 < c.price ∧
  ∃ bm, bm ∈ event.bookmakers ∧ ∃ mk, mk ∈ bm.markets ∧ ∃ o, o ∈ mk.outcomes ∧
    c.key = lowerStr mk.key ∧ c.name = o.name ∧ c.price = o.price ∧
    (containsStr ("outright") (lowerStr mk.key) = true ∨ lowerStr mk.key = "winner")

/-- Claim C5: every candidate produced by `_flatten_candidates` has
price strictly greater than 1 and stems from a market whose key
(case-insensitively) contains `"outright"` or equals `"winner"`;
non-matching markets and outcomes with prices `≤ 1` contribute no
candidate. -/
theorem flatten_candidates_filter_invariant (event : Event) (c : Candidate)
    (h : c ∈ _flatten_candidates event) : candidateProvenance event c := by
  unfold _flatten_candidates at h
  rw [List.mem_join] at h
  obtain ⟨l, hl, hcl⟩ := h
  obtain ⟨bm, hbm, rfl⟩ := List.mem_map.mp hl
  unfold candsOfBookmaker at hcl
  rw [List.mem_join] at hcl
  obtain ⟨l2, hl2, hcl2⟩ := hcl
  obtain ⟨mk, hmk, rfl⟩ := List.mem_map.mp hl2
  revert hcl2
  generalize (if bm.title = "" then "Unknown" else bm.title) = T
  intro hcl2
  simp only [candsOfMarket] at hcl2
  by_cases hcond :
      strContainsAux ("outright").data (lowerStr mk.key).data = false ∧
        lowerStr mk.key ≠ "outrights" ∧ lowerStr mk.key ≠ "winner"
  · rw [if_pos hcond] at hcl2
    simp at hcl2
  · rw [if_neg hcond] at hcl2
    obtain ⟨o, ho, hpo, rfl⟩ :=
      candsOfOutcomes_mem T (lowerStr mk.key) mk.outcomes c hcl2
    refine ⟨hpo, bm, hbm, mk, hmk, o, ho, rfl, rfl, rfl, ?_⟩
    by_cases hcont :
        strContainsAux ("outright").data (lowerStr mk.key).data = true
    · exact Or.inl hcont
    · have hA : strContainsAux ("outright").data (lowerStr mk.key).data = false := by
        cases hbb : strContainsAux ("outright").data (lowerStr mk.key).data with
        | false => rfl
        | true => exact absurd hbb hcont
      have hBC : ¬(lowerStr mk.key ≠ "outrights" ∧ lowerStr mk.key ≠ "winner") :=
        fun hb => hcond ⟨hA, hb⟩
      rw [not_and_or] at hBC
      rcases hBC with hB | hC
      · exfalso
        rw [not_not.mp hB] at hA
        exact absurd hA (by decide)
      · exact Or.inr (not_not.mp hC)

/-- Witness for C5: the concrete candidate of `wEvent`. -/
theorem flatten_candidates_filter_invariant_witness :
    wCand ∈ _flatten_candidates wEvent ∧ candidateProvenance wEvent wCand :=
  ⟨by rw [wEvent_flatten]; exact List.mem_singleton.mpr rfl,
   flatten_candidates_filter_invariant wEvent wCand
     (by rw [wEvent_flatten]; exact List.mem_singleton.mpr rfl)⟩

/-! ## Helper lemmas for the match scorer -/

lemma specTimeBump_bounds (m : Option ℚ) :
    0 ≤ specTimeBump m ∧ specTimeBump m ≤ 3/100 := by
  unfold specTimeBump
  cases m with
  | none => norm_num
  | some x =>
    dsimp only
    split_ifs <;> norm_num

lemma specLeagueBump_bounds (e : MatchEvent) :
    0 ≤ specLeagueBump e ∧ specLeagueBump e ≤ 3/200 := by
  unfold specLeagueBump
  split_ifs <;> norm_num

lemma score_single_clamp_form (now : ℚ) (e : MatchEvent) :
    _score_single now e =
      max 0 (min (1/10)
        (1/100 + specTimeBump (_minutes_to_start now e) + specLeagueBump e)) := rfl

lemma score_single_unclamped (now : ℚ) (e : MatchEvent) :
    _score_single now e =
      1/100 + specTimeBump (_minutes_to_start now e) + specLeagueBump e := by
  rw [score_single_clamp_form]
  have htb := specTimeBump_bounds (_minutes_to_start now e)
  have hlb := specLeagueBump_bounds e
  rw [min_eq_right (by linarith), max_eq_right (by linarith)]

lemma score_single_bounds (now : ℚ) (e : MatchEvent) :
    1/100 ≤ _score_single now e ∧ _score_single now e ≤ 11/200 := by
  rw [score_single_unclamped]
  have htb := specTimeBump_bounds (_minutes_to_start now e)
  have hlb := specLeagueBump_bounds e
  constructor <;> linarith

lemma score_events_aux_length (now : ℚ) :
    ∀ (es : List MatchEvent) (idx : Nat),
      (score_events_aux now idx es).length = es.length := by
  intro es
  induction es with
  | nil => intro idx; rfl
  | cons e rest ih => intro idx; simp [score_events_aux, ih]

lemma score_events_aux_getElem (now : ℚ) :
    ∀ (es : List MatchEvent) (idx i : Nat),
      (score_events_aux now idx es)[i]? =
        (es[i]?).map (fun e => scoreOne now (idx + i) e) := by
  intro es
  induction es with
  | nil => intro idx i; simp [score_events_aux]
  | cons e rest ih =>
    intro idx i
    cases i with
    | zero => simp [score_events_aux]
    | succ n =>
      simp only [score_events_aux, List.getElem?_cons_succ]
      rw [ih (idx + 1) n]
      have harith : idx + 1 + n = idx + (n + 1) := by omega
      rw [harith]

lemma mem_score_events_aux (now : ℚ) :
    ∀ (es : List MatchEvent) (idx : Nat) (p : EvPrediction),
      p ∈ score_events_aux now idx es → ∃ j e, p = scoreOne now j e := by
  intro es
  induction es with
  | nil => intro idx p hp; simp [score_events_aux] at hp
  | cons e rest ih =>
    intro idx p hp
    simp only [score_events_aux] at hp
    rcases List.mem_cons.mp hp with h | h
    · exact ⟨idx, e, h⟩
    · exact ih (idx + 1) p h

/-! ## Claim C6: length- and order-preservation of `score_events` -/

/-- Claim C6: `score_events` returns exactly one prediction per input
element, in input order (the `i`-th output is the score of the `i`-th
input at positional index `i`), and the empty input yields the empty
output. -/
theorem score_events_length_order (now : ℚ) (events : List MatchEvent) :
    (score_events now events).length = events.length ∧
    (∀ i : Nat, (score_events now events)[i]? =
      (events[i]?).map (fun e => scoreOne now i e)) ∧
    score_events now [] = [] := by
  refine ⟨score_events_aux_length now events 0, ?_, rfl⟩
  intro i
  have h := score_events_aux_getElem now events 0 i
  simpa using h

/-! ## Claim C7: the per-event EV formula of the match scorer -/

/-- Claim C7: every prediction's EV equals base `0.01` plus the
time-window bump plus the big-league bump, clamped to `[0, 0.10]`; an
event with no time and no league fields scores `ev = 0.01` and
`prob = 0.51`; a UEFA-Champions-League event with no time signal scores
`ev = 0.025`. -/
theorem score_single_formula (now : ℚ) (idx : Nat) (e : MatchEvent) :
    (scoreOne now idx e).ev =
      max 0 (min (1/10)
        (1/100 + specTimeBump (_minutes_to_start now e) + specLeagueBump e)) ∧
    (e.commence_time = none → e.tsISO = none → e.fixture_date = none →
      e.date = none → e.league = none →
      (scoreOne now idx e).ev = 1/100 ∧
      (scoreOne now idx e).prob_model = 51/100) ∧
    (_minutes_to_start now e = none → e.league = some ("UEFA Champions League") →
      (scoreOne now idx e).ev = 1/40) := by
  refine ⟨score_single_clamp_form now e, ?_, ?_⟩
  · intro h1 h2 h3 h4 h5
    have hm : _minutes_to_start now e = none := by
      unfold _minutes_to_start
      rw [h1, h2, h3, h4]
      rfl
    have hev : (scoreOne now idx e).ev = 1/100 := by
      show _score_single now e = 1/100
      rw [score_single_unclamped, hm]
      unfold specTimeBump specLeagueBump
      rw [h5]
      norm_num [_is_big_league]
    refine ⟨hev, ?_⟩
    show min (99/100) (max (1/100) (1/2 + _score_single now e)) = 51/100
    have hss : _score_single now e = 1/100 := hev
    rw [hss]
    norm_num
  · intro hm hl
    show _score_single now e = 1/40
    rw [score_single_unclamped, hm]
    unfold specTimeBump specLeagueBump
    rw [hl]
    have hbig : _is_big_league ("UEFA Champions League") = true := by decide
    simp only [hbig]
    norm_num

/-- Match event with only a league field, set to the UEFA Champions
League. -/
def uclEvent : MatchEvent :=
  { emptyMatchEvent with league := some ("UEFA Champions League") }

/-- Witness for C7: the two particular cases at concrete events. -/
theorem score_single_formula_witness :
    ((scoreOne 0 0 emptyMatchEvent).ev = 1/100 ∧
      (scoreOne 0 0 emptyMatchEvent).prob_model = 51/100) ∧
    (scoreOne 0 0 uclEvent).ev = 1/40 :=
  ⟨(score_single_formula 0 0 emptyMatchEvent).2.1 rfl rfl rfl rfl rfl,
   (score_single_formula 0 0 uclEvent).2.2 rfl rfl⟩

/-! ## Claim C8 (corrected): fixture-id and market fallbacks are
truthiness-based, not presence-based -/

/-- Match event whose fixture-id and market fields are present but hold
the empty string. -/
def emptyStrEvent : MatchEvent :=
  { emptyMatchEvent with fixture_id := some (""), market := some ("") }

/-- Counterexample to C8 as stated: on an event whose fixture-id and
market fields are PRESENT but empty (`""` is falsy in Python, so
`ev.get(...) or default` discards it), the prediction uses the
positional-index fallback `"0"` and the default `"h2h"` instead of the
present field values. -/
theorem fixture_market_present_empty_counterexample :
    emptyStrEvent.fixture_id = some ("") ∧ emptyStrEvent.market = some ("") ∧
    ((score_events 0 [emptyStrEvent])[0]?).map (fun p => p.fixture_id) =
      some ("0") ∧
    ((score_events 0 [emptyStrEvent])[0]?).map (fun p => p.market) =
      some ("h2h") :=
  ⟨rfl, rfl, rfl, rfl⟩

/-- Claim C8 (amended): the prediction's fixture id is the event's
fixture-id field when that field is present AND non-empty (truthy), and
otherwise the stringified positional index; likewise the market is the
event's market field when present and non-empty, else `"h2h"`. -/
theorem fixture_market_fallback_truthy (now : ℚ) (events : List MatchEvent)
    (i : Nat) (e : MatchEvent) (h : events[i]? = some e) :
    ((e.fixture_id = none ∨ e.fixture_id = some ("")) →
      ((score_events now events)[i]?).map (fun p => p.fixture_id) =
        some (Nat.repr i)) ∧
    (∀ s, e.fixture_id = some s → s ≠ "" →
      ((score_events now events)[i]?).map (fun p => p.fixture_id) = some s) ∧
    ((e.market = none ∨ e.market = some ("")) →
      ((score_events now events)[i]?).map (fun p => p.market) = some ("h2h")) ∧
    (∀ s, e.market = some s → s ≠ "" →
      ((score_events now events)[i]?).map (fun p => p.market) = some s) := by
  have hg : (score_events now events)[i]? = some (scoreOne now i e) := by
    unfold score_events
    rw [score_events_aux_getElem now events 0 i, h]
    simp
  refine ⟨?_, ?_, ?_, ?_⟩
  · rintro (hf | hf) <;> rw [hg] <;> simp [scoreOne, hf]
  · intro s hf hs
    rw [hg]
    simp [scoreOne, hf, hs]
  · rintro (hf | hf) <;> rw [hg] <;> simp [scoreOne, hf]
  · intro s hf hs
    rw [hg]
    simp [scoreOne, hf, hs]

/-- Match event with a truthy fixture-id field. -/
def xEvent : MatchEvent := { emptyMatchEvent with fixture_id := some ("X7") }

/-- Witness for C8 (amended): a truthy fixture id is kept, an absent
market defaults. -/
theorem fixture_market_fallback_truthy_witness :
    ((score_events 0 [xEvent])[0]?).map (fun p => p.fixture_id) = some ("X7") ∧
    ((score_events 0 [xEvent])[0]?).map (fun p => p.market) = some ("h2h") :=
  ⟨(fixture_market_fallback_truthy 0 [xEvent] 0 xEvent rfl).2.1 ("X7") rfl
     (by decide),
   (fixture_market_fallback_truthy 0 [xEvent] 0 xEvent rfl).2.2.1 (Or.inl rfl)⟩

/-! ## Claim C9: per-field parse leniency of the match scorer -/

/-- A raw time-field value that carries no usable time signal: absent,
falsy, or present but unparseable. -/
def junkTime (o : Option TimeVal) : Prop :=
  o = none ∨ o = some TimeVal.falsy ∨ o = some TimeVal.unparseable

/-- Claim C9: the match scorer degrades every per-field problem to a
neutral default instead of raising — an absent fixture id falls back to
the positional index, an absent market to `"h2h"`, time fields that are
absent, falsy or unparseable yield no time signal, and without a time
signal the EV is the base plus (at most) the league bump.  Totality over
all such inputs holds by construction: `score_events` is a total
function of the event structure.  (League and fixture-id values are
modelled at the spec's data-model types, i.e. optional strings.) -/
theorem match_scorer_leniency (now : ℚ) (idx : Nat) (e : MatchEvent) :
    (e.fixture_id = none → (scoreOne now idx e).fixture_id = Nat.repr idx) ∧
    (e.market = none → (scoreOne now idx e).market = "h2h") ∧
    (junkTime e.commence_time → junkTime e.tsISO → junkTime e.fixture_date →
      junkTime e.date → _minutes_to_start now e = none) ∧
    (_minutes_to_start now e = none →
      (scoreOne now idx e).ev = 1/100 + specLeagueBump e) := by
  refine ⟨?_, ?_, ?_, ?_⟩
  · intro hf
    simp [scoreOne, hf]
  · intro hm
    simp [scoreOne, hm]
  · intro h1 h2 h3 h4
    unfold _minutes_to_start
    rcases h1 with h1' | h1' | h1' <;> rcases h2 with h2' | h2' | h2' <;>
      rcases h3 with h3' | h3' | h3' <;> rcases h4 with h4' | h4' | h4' <;>
      rw [h1', h2', h3', h4'] <;> rfl
  · intro hm
    show _score_single now e = 1/100 + specLeagueBump e
    rw [score_single_unclamped, hm]
    rw [show specTimeBump none = 0 from rfl]
    ring

/-- Match event whose time fields are junk (unparseable or falsy) and
whose other fields are absent. -/
def junkEvent : MatchEvent :=
  { fixture_id := none, market := none,
    commence_time := some TimeVal.unparseable, tsISO := some TimeVal.falsy,
    fixture_date := none, date := some TimeVal.unparseable, league := none }

/-- Witness for C9: all four leniency conjuncts at a concrete junk
event. -/
theorem match_scorer_leniency_witness :
    (scoreOne 0 7 junkEvent).fixture_id = Nat.repr 7 ∧
    (scoreOne 0 7 junkEvent).market = "h2h" ∧
    _minutes_to_start 0 junkEvent = none ∧
    (scoreOne 0 7 junkEvent).ev = 1/100 + specLeagueBump junkEvent :=
  ⟨(match_scorer_leniency 0 7 junkEvent).1 rfl,
   (match_scorer_leniency 0 7 junkEvent).2.1 rfl,
   (match_scorer_leniency 0 7 junkEvent).2.2.1 (Or.inr (Or.inr rfl))
     (Or.inr (Or.inl rfl)) (Or.inl rfl) (Or.inr (Or.inr rfl)),
   (match_scorer_leniency 0 7 junkEvent).2.2.2 rfl⟩

/-! ## Claim C10: invariant bounds of match predictions -/

/-- Claim C10: every prediction of `score_events` has
`ev ∈ [0.01, 0.055]` and `prob_model = 0.5 + ev` exactly — the EV clamp
at 0 and 0.10 and the probability clamps at 0.01 and 0.99 never bind. -/
theorem match_predictions_bounds (now : ℚ) (events : List MatchEvent)
    (p : EvPrediction) (h : p ∈ score_events now events) :
    1/100 ≤ p.ev ∧ p.ev ≤ 11/200 ∧ p.prob_model = 1/2 + p.ev := by
  obtain ⟨j, e, rfl⟩ := mem_score_events_aux now events 0 p h
  have hb := score_single_bounds now e
  refine ⟨hb.1, hb.2, ?_⟩
  show min (99/100) (max (1/100) (1/2 + _score_single now e)) =
    1/2 + _score_single now e
  rw [max_eq_right (by linarith [hb.1]), min_eq_right (by linarith [hb.2])]

/-- Witness for C10: the bounds at the prediction of a concrete event. -/
theorem match_predictions_bounds_witness :
    1/100 ≤ (scoreOne 0 0 emptyMatchEvent).ev ∧
    (scoreOne 0 0 emptyMatchEvent).ev ≤ 11/200 ∧
    (scoreOne 0 0 emptyMatchEvent).prob_model =
      1/2 + (scoreOne 0 0 emptyMatchEvent).ev :=
  match_predictions_bounds 0 [emptyMatchEvent] (scoreOne 0 0 emptyMatchEvent)
    (by rw [show score_events 0 [emptyMatchEvent] =
        [scoreOne 0 0 emptyMatchEvent] from rfl]
        exact List.mem_singleton.mpr rfl)
